import Mathlib

/-!
# Verification of the chatbot backend's agent core and tools

Shallow embedding of `src/agent/tools.py`, `src/agent/graph.py` and
`src/streaming.py` of the Almog16/3997-chatbot-ollama repository, together
with proofs of the spec's claims about them.

Conventions:
* Python strings are Lean `String`s (both are sequences of unicode scalar
  values; Python `len`, slicing and `re` operate on code points, as do the
  Lean counterparts used here).
* Python's binary64 floats are modelled as exact rationals (`Rat`).  No
  claim in scope depends on binary rounding or float formatting.
* A Python function that can raise is embedded as `Except PyExc _`; one
  whose body catches every exception is a total `String`-valued function.
-/

namespace ChatbotOllama

/-- Exceptions a tool body can raise or catch (`ZeroDivisionError`,
`TypeError`, `SyntaxError`, `binascii.Error`/`UnicodeDecodeError`, ...). -/
inductive PyExc where
  | zeroDivision
  | typeError
  | syntaxError
  | valueError
  deriving Repr, DecidableEq

/-- Whitespace characters matched by Python's `\s` and `str.split()` /
`str.strip()` for the ASCII range (the inputs of every claim are ASCII). -/
def isPySpace (c : Char) : Bool :=
  c = ' ' || c = '\t' || c = '\n' || c = '\r' || c = '\x0b' || c = '\x0c'

/-! ## calculator (src/agent/tools.py) -/

/-- The character class kept by `re.sub(r"[^0-9+\-*/().\s]", "", expression)`:
digits, the four operators, parentheses, the decimal point and whitespace. -/
def calcAllowed (c : Char) : Bool :=
  c.isDigit || c = '+' || c = '-' || c = '*' || c = '/' ||
  c = '(' || c = ')' || c = '.' || isPySpace c

/-- `safe_expression = re.sub(r"[^0-9+\-*/().\s]", "", expression)`:
every character outside the allowed class is removed. -/
def sanitize (s : String) : String :=
  String.mk (s.data.filter calcAllowed)

/-- Values `eval` can produce from a sanitized expression: ints, floats
(modelled as exact rationals) and the empty tuple `()` (the only tuple
constructible without a comma). -/
inductive PyVal where
  | int : Int → PyVal
  | float : Rat → PyVal
  | tup
  deriving Repr, DecidableEq

/-- Tokens of the sanitized expression language. -/
inductive CalcTok where
  | num : PyVal → CalcTok
  | plus | minus | star | slash | dstar | dslash | lp | rp
  deriving Repr, DecidableEq

/-- Parse one maximal run of digits and dots the way the Python tokenizer
classifies it: no dot → decimal int literal (leading zeros are a syntax
error unless all digits are zero), one dot → float literal, anything else
→ syntax error. -/
def lexNumber (run : List Char) : Except PyExc PyVal :=
  let digits := run.filter Char.isDigit
  if digits.isEmpty then .error .syntaxError
  else if run.count '.' = 0 then
    -- decimal int literal; Python 3 rejects leading zeros such as 012
    if run.head? = some '0' ∧ run.length > 1 ∧ run.any (· ≠ '0') then
      .error .syntaxError
    else
      .ok (.int (run.foldl (fun a c => a * 10 + (c.toNat - '0'.toNat)) 0 : Nat))
  else if run.count '.' = 1 then
    let intPart := run.takeWhile (· ≠ '.')
    let fracPart := (run.dropWhile (· ≠ '.')).drop 1
    let ip : Nat := intPart.foldl (fun a c => a * 10 + (c.toNat - '0'.toNat)) 0
    let fp : Nat := fracPart.foldl (fun a c => a * 10 + (c.toNat - '0'.toNat)) 0
    .ok (.float ((ip : Rat) + (fp : Rat) / ((10 : Rat) ^ fracPart.length)))
  else .error .syntaxError

/-- Tokenizer for the sanitized arithmetic language (`**` and `//` are the
two-character operators Python recognises over this character set).  The
fuel argument makes the recursion structural; every step consumes at
least one character, so `calcLex` below always supplies enough. -/
def calcLexF : Nat → List Char → Except PyExc (List CalcTok)
  | 0, _ => .error .syntaxError
  | _, [] => .ok []
  | fuel + 1, c :: cs =>
    if isPySpace c then calcLexF fuel cs
    else if c = '*' then
      if cs.head? = some '*' then do pure (.dstar :: (← calcLexF fuel cs.tail))
      else do pure (.star :: (← calcLexF fuel cs))
    else if c = '/' then
      if cs.head? = some '/' then do pure (.dslash :: (← calcLexF fuel cs.tail))
      else do pure (.slash :: (← calcLexF fuel cs))
    else if c = '+' then do pure (.plus :: (← calcLexF fuel cs))
    else if c = '-' then do pure (.minus :: (← calcLexF fuel cs))
    else if c = '(' then do pure (.lp :: (← calcLexF fuel cs))
    else if c = ')' then do pure (.rp :: (← calcLexF fuel cs))
    else if c.isDigit || decide (c = '.') then
      -- c itself satisfies the class, so the maximal run is c followed by
      -- the maximal run of cs, and the rest is cs with that run dropped
      let run := c :: cs.takeWhile (fun d => d.isDigit || decide (d = '.'))
      do pure (.num (← lexNumber run) ::
        (← calcLexF fuel (cs.dropWhile (fun d => d.isDigit || decide (d = '.')))))
    else .error .syntaxError

/-- The tokenizer at sufficient fuel. -/
def calcLex (cs : List Char) : Except PyExc (List CalcTok) :=
  calcLexF (cs.length + 1) cs

/-- Python `+` on the value domain: ints add to ints, a float makes a
float, `() + ()` is `()`, mixing a tuple with a number is a `TypeError`. -/
def pyAdd : PyVal → PyVal → Except PyExc PyVal
  | .int a, .int b => .ok (.int (a + b))
  | .int a, .float b => .ok (.float ((a : Rat) + b))
  | .float a, .int b => .ok (.float (a + (b : Rat)))
  | .float a, .float b => .ok (.float (a + b))
  | .tup, .tup => .ok .tup
  | _, _ => .error .typeError

/-- Python `-` on the value domain. -/
def pySub : PyVal → PyVal → Except PyExc PyVal
  | .int a, .int b => .ok (.int (a - b))
  | .int a, .float b => .ok (.float ((a : Rat) - b))
  | .float a, .int b => .ok (.float (a - (b : Rat)))
  | .float a, .float b => .ok (.float (a - b))
  | _, _ => .error .typeError

/-- Python `*` on the value domain (`() * n` and `n * ()` are `()`). -/
def pyMul : PyVal → PyVal → Except PyExc PyVal
  | .int a, .int b => .ok (.int (a * b))
  | .int a, .float b => .ok (.float ((a : Rat) * b))
  | .float a, .int b => .ok (.float (a * (b : Rat)))
  | .float a, .float b => .ok (.float (a * b))
  | .tup, .int _ => .ok .tup
  | .int _, .tup => .ok .tup
  | _, _ => .error .typeError

/-- Numeric view of a value (`none` for the tuple). -/
def PyVal.toRat? : PyVal → Option Rat
  | .int a => some (a : Rat)
  | .float a => some a
  | .tup => none

/-- Python `/`: true division, always a float; dividing by zero (int or
float) raises `ZeroDivisionError`; tuples raise `TypeError`. -/
def pyDiv (a b : PyVal) : Except PyExc PyVal :=
  match a.toRat?, b.toRat? with
  | some x, some y => if y = 0 then .error .zeroDivision else .ok (.float (x / y))
  | _, _ => .error .typeError

/-- Python `//`: floor division (`Int.fdiv` is Python's floor semantics);
two ints give an int, a float operand gives a float. -/
def pyFloorDiv : PyVal → PyVal → Except PyExc PyVal
  | .int a, .int b =>
    if b = 0 then .error .zeroDivision else .ok (.int (Int.fdiv a b))
  | .int a, .float b =>
    if b = 0 then .error .zeroDivision else .ok (.float (⌊(a : Rat) / b⌋ : Int))
  | .float a, .int b =>
    if b = 0 then .error .zeroDivision else .ok (.float (⌊a / (b : Rat)⌋ : Int))
  | .float a, .float b =>
    if b = 0 then .error .zeroDivision else .ok (.float (⌊a / b⌋ : Int))
  | _, _ => .error .typeError

/-- Python `**` restricted to rational-valued cases: integer exponents are
exact; `0 ** negative` raises `ZeroDivisionError`.  A non-integer (float)
exponent generally yields an irrational real, which the rational model
cannot represent; it is mapped to `.valueError` here.  No claim exercises
that corner (the calculator's blanket `except` turns it into an error
string either way only on this unmodelled case). -/
def pyPow : PyVal → PyVal → Except PyExc PyVal
  | .int a, .int b =>
    if b ≥ 0 then .ok (.int (a ^ b.toNat))
    else if a = 0 then .error .zeroDivision
    else .ok (.float (((a : Rat) ^ (-b).toNat)⁻¹))
  | .float a, .int b =>
    if b ≥ 0 then .ok (.float (a ^ b.toNat))
    else if a = 0 then .error .zeroDivision
    else .ok (.float ((a ^ (-b).toNat)⁻¹))
  | _, _ => .error .valueError

/-- Unary minus (`TypeError` on a tuple). -/
def pyNeg : PyVal → Except PyExc PyVal
  | .int a => .ok (.int (-a))
  | .float a => .ok (.float (-a))
  | .tup => .error .typeError

/-- Unary plus (`TypeError` on a tuple). -/
def pyPos : PyVal → Except PyExc PyVal
  | .int a => .ok (.int a)
  | .float a => .ok (.float a)
  | .tup => .error .typeError

mutual
/-- `expr := term (('+'|'-') term)*` -/
def parseExpr : Nat → List CalcTok → Except PyExc (PyVal × List CalcTok)
  | 0, _ => .error .syntaxError
  | fuel + 1, ts => do
    let (v, ts) ← parseTerm fuel ts
    parseExprRest fuel v ts

/-- Left-associated additive tail. -/
def parseExprRest : Nat → PyVal → List CalcTok → Except PyExc (PyVal × List CalcTok)
  | 0, _, _ => .error .syntaxError
  | fuel + 1, v, ts =>
    match ts with
    | .plus :: ts' => do
      let (w, ts'') ← parseTerm fuel ts'
      parseExprRest fuel (← pyAdd v w) ts''
    | .minus :: ts' => do
      let (w, ts'') ← parseTerm fuel ts'
      parseExprRest fuel (← pySub v w) ts''
    | _ => .ok (v, ts)

/-- `term := unary (('*'|'/'|'//') unary)*` -/
def parseTerm : Nat → List CalcTok → Except PyExc (PyVal × List CalcTok)
  | 0, _ => .error .syntaxError
  | fuel + 1, ts => do
    let (v, ts) ← parseUnary fuel ts
    parseTermRest fuel v ts

/-- Left-associated multiplicative tail. -/
def parseTermRest : Nat → PyVal → List CalcTok → Except PyExc (PyVal × List CalcTok)
  | 0, _, _ => .error .syntaxError
  | fuel + 1, v, ts =>
    match ts with
    | .star :: ts' => do
      let (w, ts'') ← parseUnary fuel ts'
      parseTermRest fuel (← pyMul v w) ts''
    | .slash :: ts' => do
      let (w, ts'') ← parseUnary fuel ts'
      parseTermRest fuel (← pyDiv v w) ts''
    | .dslash :: ts' => do
      let (w, ts'') ← parseUnary fuel ts'
      parseTermRest fuel (← pyFloorDiv v w) ts''
    | _ => .ok (v, ts)

/-- `unary := ('+'|'-')* power` — unary binds looser than `**` on its left
(`-2**2 = -(2**2)`), as in Python. -/
def parseUnary : Nat → List CalcTok → Except PyExc (PyVal × List CalcTok)
  | 0, _ => .error .syntaxError
  | fuel + 1, ts =>
    match ts with
    | .minus :: ts' => do
      let (v, ts'') ← parseUnary fuel ts'
      pure ((← pyNeg v), ts'')
    | .plus :: ts' => do
      let (v, ts'') ← parseUnary fuel ts'
      pure ((← pyPos v), ts'')
    | _ => parsePower fuel ts

/-- `power := atom ['**' unary]` — right associative, the exponent may be
signed (`2**-1`), as in Python. -/
def parsePower : Nat → List CalcTok → Except PyExc (PyVal × List CalcTok)
  | 0, _ => .error .syntaxError
  | fuel + 1, ts => do
    let (v, ts') ← parseAtom fuel ts
    match ts' with
    | .dstar :: ts'' => do
      let (w, ts''') ← parseUnary fuel ts''
      pure ((← pyPow v w), ts''')
    | _ => .ok (v, ts')

/-- `atom := number | '()' | '(' expr ')'` — `()` is the empty tuple. -/
def parseAtom : Nat → List CalcTok → Except PyExc (PyVal × List CalcTok)
  | 0, _ => .error .syntaxError
  | fuel + 1, ts =>
    match ts with
    | .num v :: ts' => .ok (v, ts')
    | .lp :: .rp :: ts' => .ok (.tup, ts')
    | .lp :: ts' => do
      let (v, ts'') ← parseExpr fuel ts'
      match ts'' with
      | .rp :: ts''' => .ok (v, ts''')
      | _ => .error .syntaxError
    | _ => .error .syntaxError
end

/-- Render a value the way `f"Result: {result}"` does.  Floats print with a
decimal expansion; only terminating expansions occur in claims (none do). -/
def pyRepr : PyVal → String
  | .int a => toString a
  | .tup => "()"
  | .float a =>
    let sign := if a < 0 then "-" else ""
    let b := |a|
    let ip := ⌊b⌋.toNat
    let frac := b - (ip : Rat)
    if frac = 0 then sign ++ toString ip ++ ".0"
    else
      -- up to 17 significant fractional digits, enough for any claim input
      let digits := (List.range 17).foldl
        (fun (acc : String × Rat) _ =>
          let d := ⌊acc.2 * 10⌋.toNat
          (acc.1 ++ toString d, acc.2 * 10 - (d : Rat)))
        ("", frac)
      sign ++ toString ip ++ "." ++ digits.1

/-- `eval(safe_expression, {"__builtins__": {}}, {})` on the sanitized
arithmetic language: tokenize, parse, require the whole input consumed. -/
def pyEval (s : String) : Except PyExc PyVal := do
  let ts ← calcLex s.data
  let (v, rest) ← parseExpr (8 * ts.length + 8) ts
  if rest.isEmpty then pure v else .error .syntaxError

/-- `calculator` from src/agent/tools.py: sanitize, reject an empty
residue, evaluate, and catch every exception into an error string. -/
def calculator (expression : String) : String :=
  let safe_expression := sanitize expression
  if safe_expression = "" then "Error: Invalid expression"
  else
    match pyEval safe_expression with
    | .ok result => "Result: " ++ pyRepr result
    | .error .zeroDivision => "Error: Division by zero"
    | .error _ => "Error calculating expression: invalid syntax"

/-! ## text_analyzer (src/agent/tools.py) -/

/-- Helper for `str.split()`: words of a character list (maximal runs of
non-whitespace), accumulator reversed per word. -/
def wordsAux : List Char → List Char → List (List Char)
  | [], acc => if acc.isEmpty then [] else [acc.reverse]
  | c :: cs, acc =>
    if isPySpace c then
      if acc.isEmpty then wordsAux cs [] else acc.reverse :: wordsAux cs []
    else wordsAux cs (c :: acc)

/-- Python `str.split()` with no argument: split on whitespace runs,
discarding empty pieces. -/
def pySplitWs (s : String) : List String :=
  (wordsAux s.data []).map String.mk

/-- Helper for `str.split(".")`: segments between dots, empties kept. -/
def splitDotAux : List Char → List Char → List (List Char)
  | [], acc => [acc.reverse]
  | c :: cs, acc =>
    if c = '.' then acc.reverse :: splitDotAux cs []
    else splitDotAux cs (c :: acc)

/-- Python `str.split(".")`. -/
def pySplitDot (s : String) : List String :=
  (splitDotAux s.data []).map String.mk

/-- Python `str.strip()`: remove leading and trailing whitespace. -/
def pyStrip (s : String) : String :=
  String.mk (((s.data.dropWhile isPySpace).reverse.dropWhile isPySpace).reverse)

/-- Python `f"{x:.1f}"` on the exact rational value: one fractional digit,
round half to even (the binary-float detour of the original can differ on
ties of the binary representation; no claim depends on this digit). -/
def fmt1f (q : Rat) : String :=
  let sign := if q < 0 then "-" else ""
  let n : Int := round (|q| * 10)
  sign ++ toString (n / 10) ++ "." ++ toString (n % 10)

/-- `text_analyzer` from src/agent/tools.py.  Its body has no
`try`/`except`: when the text has no words, `chars / words` raises an
uncaught `ZeroDivisionError`, so the embedding returns `Except`. -/
def text_analyzer (text : String) : Except PyExc String :=
  let words := (pySplitWs text).length
  let chars := text.length
  let sentences := ((pySplitDot text).filter (fun s => pyStrip s ≠ "")).length
  if words = 0 then .error .zeroDivision
  else .ok ("📝 Text Analysis:\n" ++
    "- Words: " ++ toString words ++ "\n" ++
    "- Characters: " ++ toString chars ++ "\n" ++
    "- Sentences: " ++ toString sentences ++ "\n" ++
    "- Avg word length: " ++ fmt1f ((chars : Rat) / (words : Rat)) ++ " chars")

/-! ## encode_decode_text (src/agent/tools.py) -/

/-- UTF-8 encoding of one unicode scalar value (Python `str.encode()`). -/
def utf8EncodeChar (c : Char) : List Nat :=
  let n := c.toNat
  if n < 0x80 then [n]
  else if n < 0x800 then [0xC0 + n / 64, 0x80 + n % 64]
  else if n < 0x10000 then
    [0xE0 + n / 4096, 0x80 + n / 64 % 64, 0x80 + n % 64]
  else
    [0xF0 + n / 262144, 0x80 + n / 4096 % 64, 0x80 + n / 64 % 64, 0x80 + n % 64]

/-- Python `str.encode()`: UTF-8 bytes of the string. -/
def utf8Encode (s : String) : List Nat :=
  s.data.flatMap utf8EncodeChar

/-- Is `b` a UTF-8 continuation byte `10xxxxxx`? -/
def isCont (b : Nat) : Bool := 0x80 ≤ b ∧ b < 0xC0

/-- Strict UTF-8 decoding (Python `bytes.decode()`), rejecting overlong
forms, surrogates and out-of-range values with a `UnicodeDecodeError`
(mapped to `.valueError`).  Fuel keeps the recursion structural; every
step consumes at least one byte. -/
def utf8DecodeF : Nat → List Nat → Except PyExc (List Char)
  | 0, _ => .error .valueError
  | _, [] => .ok []
  | fuel + 1, b :: bs =>
    if b < 0x80 then do
      pure (Char.ofNat b :: (← utf8DecodeF fuel bs))
    else if b < 0xE0 then
      match bs with
      | b2 :: rest =>
        if 0xC2 ≤ b ∧ isCont b2 then do
          pure (Char.ofNat ((b - 0xC0) * 64 + (b2 - 0x80)) :: (← utf8DecodeF fuel rest))
        else .error .valueError
      | _ => .error .valueError
    else if b < 0xF0 then
      match bs with
      | b2 :: b3 :: rest =>
        let n := (b - 0xE0) * 4096 + (b2 - 0x80) * 64 + (b3 - 0x80)
        if isCont b2 ∧ isCont b3 ∧ 0x800 ≤ n ∧ ¬(0xD800 ≤ n ∧ n < 0xE000) then do
          pure (Char.ofNat n :: (← utf8DecodeF fuel rest))
        else .error .valueError
      | _ => .error .valueError
    else if b < 0xF5 then
      match bs with
      | b2 :: b3 :: b4 :: rest =>
        let n := (b - 0xF0) * 262144 + (b2 - 0x80) * 4096 + (b3 - 0x80) * 64 + (b4 - 0x80)
        if isCont b2 ∧ isCont b3 ∧ isCont b4 ∧ 0x10000 ≤ n ∧ n < 0x110000 then do
          pure (Char.ofNat n :: (← utf8DecodeF fuel rest))
        else .error .valueError
      | _ => .error .valueError
    else .error .valueError

/-- The decoder at sufficient fuel. -/
def utf8Decode (bs : List Nat) : Except PyExc (List Char) :=
  utf8DecodeF (bs.length + 1) bs

/-- The standard base64 alphabet, indexed 0–63. -/
def b64Alphabet : List Char :=
  "ABCDEFGHIJKLMNOPQRSTUVWXYZabcdefghijklmnopqrstuvwxyz0123456789+/".data

/-- The character for a 6-bit group. -/
def b64Char (n : Nat) : Char := b64Alphabet.getD n 'A'

/-- `base64.b64encode`: encode bytes three at a time with `=` padding. -/
def b64encode : List Nat → List Char
  | [] => []
  | [a] =>
    [b64Char (a / 4), b64Char (a % 4 * 16), '=', '=']
  | [a, b] =>
    [b64Char (a / 4), b64Char (a % 4 * 16 + b / 16), b64Char (b % 16 * 4), '=']
  | a :: b :: c :: rest =>
    b64Char (a / 4) :: b64Char (a % 4 * 16 + b / 16) ::
    b64Char (b % 16 * 4 + c / 64) :: b64Char (c % 64) :: b64encode rest

/-- Value of one base64 alphabet character. -/
def b64Val (c : Char) : Nat := (b64Alphabet.indexOf c)

/-- Decode a filtered base64 string four characters at a time, honouring
trailing `=` padding; misplaced padding raises `binascii.Error`
(mapped to `.valueError`). -/
def b64decodeGroups : List Char → Except PyExc (List Nat)
  | [] => .ok []
  | c1 :: c2 :: c3 :: c4 :: rest =>
    if c1 = '=' ∨ c2 = '=' then .error .valueError
    else
      let a := b64Val c1
      let b := b64Val c2
      if c3 = '=' then
        if c4 = '=' ∧ rest = [] then .ok [a * 4 + b / 16]
        else .error .valueError
      else if c4 = '=' then
        if rest = [] then .ok [a * 4 + b / 16, b % 16 * 16 + b64Val c3 / 4]
        else .error .valueError
      else do
        let c := b64Val c3
        let d := b64Val c4
        pure ((a * 4 + b / 16) :: (b % 16 * 16 + c / 4) :: (c % 4 * 64 + d) :: (← b64decodeGroups rest))
  | _ => .error .valueError

/-- `base64.b64decode` with `validate=False` (the default): characters
outside the alphabet and `=` are discarded first, then the length must be
a multiple of four. -/
def b64decode (s : List Char) : Except PyExc (List Nat) :=
  let t := s.filter (fun c => b64Alphabet.contains c || c = '=')
  if t.length % 4 = 0 then b64decodeGroups t else .error .valueError

/-- Bytes kept literal by `urllib.parse.quote` with the default
`safe='/'`: unreserved characters and the slash. -/
def quoteSafe (b : Nat) : Bool :=
  (0x41 ≤ b ∧ b ≤ 0x5A) || (0x61 ≤ b ∧ b ≤ 0x7A) || (0x30 ≤ b ∧ b ≤ 0x39) ||
  b = '_'.toNat || b = '.'.toNat || b = '-'.toNat || b = '~'.toNat || b = '/'.toNat

/-- Upper-case hex digit. -/
def hexDigit (n : Nat) : Char :=
  "0123456789ABCDEF".data.getD n '0'

/-- `urllib.parse.quote(text)`: percent-encode the UTF-8 bytes. -/
def urlQuote (s : String) : String :=
  String.mk ((utf8Encode s).flatMap (fun b =>
    if quoteSafe b then [Char.ofNat b]
    else ['%', hexDigit (b / 16), hexDigit (b % 16)]))

/-- Hex value of a character, if it is a hex digit. -/
def hexVal? (c : Char) : Option Nat :=
  if c.isDigit then some (c.toNat - '0'.toNat)
  else if 'a' ≤ c ∧ c ≤ 'f' then some (c.toNat - 'a'.toNat + 10)
  else if 'A' ≤ c ∧ c ≤ 'F' then some (c.toNat - 'A'.toNat + 10)
  else none

/-- Permissive UTF-8 decoding used by `urllib.parse.unquote`
(`errors='replace'`): undecodable bytes become U+FFFD one byte at a time
(approximating CPython's replacement granularity; no claim touches it). -/
def utf8DecodeReplace (fuel : Nat) (bs : List Nat) : List Char :=
  match fuel, bs with
  | 0, _ => []
  | _, [] => []
  | fuel + 1, b :: rest =>
    match utf8Decode (b :: rest) with
    | .ok cs => cs
    | .error _ =>
      match utf8Decode [b] with
      | .ok cs => cs ++ utf8DecodeReplace fuel rest
      | .error _ =>
        -- try the longest decodable prefix of a multi-byte sequence
        let len := if b < 0xE0 then 2 else if b < 0xF0 then 3 else 4
        match utf8Decode (bs.take len) with
        | .ok cs => cs ++ utf8DecodeReplace fuel (bs.drop len)
        | .error _ => Char.ofNat 0xFFFD :: utf8DecodeReplace fuel rest

/-- `urllib.parse.unquote(text)`: decode `%XX` escapes byte-wise, then
UTF-8-decode the byte runs with replacement. -/
def urlUnquote (fuel : Nat) (cs : List Char) : String :=
  match fuel, cs with
  | 0, _ => ""
  | _, [] => ""
  | fuel + 1, cs =>
    match cs with
    | [] => ""
    | '%' :: c1 :: c2 :: rest =>
      match hexVal? c1, hexVal? c2 with
      | some h, some l =>
        -- collect the maximal run of %XX escapes into one byte string
        let rec collect : Nat → List Char → (List Nat × List Char)
          | 0, l => ([], l)
          | _, '%' :: d1 :: d2 :: r =>
            match hexVal? d1, hexVal? d2 with
            | some x, some y =>
              let (more, rem) := collect fuel r
              ((x * 16 + y) :: more, rem)
            | _, _ => ([], '%' :: d1 :: d2 :: r)
          | _, l => ([], l)
        let (bytes, rem) := collect fuel rest
        String.mk (utf8DecodeReplace (bytes.length + 1) ((h * 16 + l) :: bytes)) ++
          urlUnquote fuel rem
      | _, _ => "%" ++ urlUnquote fuel (c1 :: c2 :: rest)
    | c :: rest => String.mk [c] ++ urlUnquote fuel rest

/-- `encode_decode_text` from src/agent/tools.py: dispatch on the
operation string; the whole body is inside `try`/`except Exception`, so
failures surface as `Error: ...` strings. -/
def encode_decode_text (text : String) (operation : String := "base64_encode") : String :=
  if operation = "base64_encode" then
    "Base64 encoded: " ++ String.mk (b64encode (utf8Encode text))
  else if operation = "base64_decode" then
    match b64decode text.data with
    | .error _ => "Error: Invalid base64-encoded string"
    | .ok bytes =>
      match utf8Decode bytes with
      | .ok cs => "Base64 decoded: " ++ String.mk cs
      | .error _ => "Error: invalid utf-8 sequence"
  else if operation = "url_encode" then
    "URL encoded: " ++ urlQuote text
  else if operation = "url_decode" then
    "URL decoded: " ++ urlUnquote (text.length + 1) text.data
  else
    "Error: Operation must be base64_encode, base64_decode, url_encode, or url_decode"

/-! ## Agent graph (src/agent/graph.py) and event stream (src/streaming.py)

The LangGraph pieces are embedded as follows.  A message is a tagged
union of the LangChain message classes used by the code.  The model
backend is an oracle `script : Nat → AIResp` giving the response to the
n-th model invocation of the request (the backend is an external HTTP
service; successive invocations may answer differently, which the call
index captures).  Tool execution through the registry is an oracle
`runTool : name → args → result` (tool bodies are verified separately
above; the graph treats them uniformly).  `AgentState` carries the four
fields of `state.py`; its `messages` field has the `add_messages`
reducer, so a node's returned `messages` list is appended to the state
while the other three fields are overwritten. -/

/-- A requested tool invocation (`tool_call["name"]`, `tool_call["args"]`,
and its id); the argument mapping is opaque here. -/
structure ToolCall where
  id : String
  name : String
  args : String
  deriving Repr, DecidableEq

/-- The LangChain message classes the code manipulates. -/
inductive LCMessage where
  | system (content : String)
  | human (content : String)
  | ai (content : String) (tool_calls : List ToolCall)
  | toolMsg (name content tool_call_id : String)
  deriving Repr, DecidableEq

/-- Every message class has a `content` attribute. -/
def LCMessage.content : LCMessage → String
  | .system c => c
  | .human c => c
  | .ai c _ => c
  | .toolMsg _ c _ => c

/-- `isinstance(msg, SystemMessage)`. -/
def LCMessage.isSystem : LCMessage → Bool
  | .system _ => true
  | _ => false

/-- One model response: text content plus requested tool calls
(`content` may be present and empty alongside `tool_calls`). -/
structure AIResp where
  content : String
  tool_calls : List ToolCall
  deriving Repr, DecidableEq

/-- An entry of the state's `tool_results` list:
`{"tool": ..., "result": ...}`. -/
structure ToolResult where
  tool : String
  result : String
  deriving Repr, DecidableEq

/-- `AgentState` from src/agent/state.py. -/
structure AgentState where
  messages : List LCMessage
  reasoning_steps : List String
  tool_results : List ToolResult
  iteration_count : Nat
  deriving Repr, DecidableEq

/-- A node's returned partial state (same four keys). -/
structure NodeOutput where
  messages : List LCMessage
  reasoning_steps : List String
  tool_results : List ToolResult
  iteration_count : Nat
  deriving Repr, DecidableEq

/-- LangGraph state merge: `messages` is `Annotated[..., add_messages]`
(append); the other fields have no reducer and are overwritten. -/
def applyUpdate (s : AgentState) (u : NodeOutput) : AgentState :=
  { messages := s.messages ++ u.messages
    reasoning_steps := u.reasoning_steps
    tool_results := u.tool_results
    iteration_count := u.iteration_count }

/-- `MAX_ITERATIONS = int(os.getenv("MAX_ITERATIONS", "2"))` at its
default. -/
def MAX_ITERATIONS : Nat := 2

/-- Modelled from the spec: the Jinja2 template
`agent_system_prompt.jinja2` rendered by `get_system_prompt` is not
present under src/, so its text is unknown; every claim in scope depends
only on the fact that `call_model` prepends it as a `SystemMessage`. -/
def get_system_prompt : String :=
  "You are a helpful AI assistant with access to tools."

/-- `call_model` from src/agent/graph.py: prepend the system prompt if no
system message is present, invoke the model (the `n`-th oracle answer),
and return the node's output with `iteration_count` incremented.  The
first component is the exact message list sent to the model. -/
def call_model (script : Nat → AIResp) (n : Nat) (s : AgentState) :
    List LCMessage × NodeOutput :=
  let messages :=
    if s.messages.any LCMessage.isSystem then s.messages
    else LCMessage.system get_system_prompt :: s.messages
  let response := LCMessage.ai (script n).content (script n).tool_calls
  (messages,
   { messages := [response]
     iteration_count := s.iteration_count + 1
     reasoning_steps := s.reasoning_steps
     tool_results := s.tool_results })

/-- The `tool_calls` attribute of the last message when it is an
`AIMessage`, else nothing. -/
def lastToolCalls (msgs : List LCMessage) : List ToolCall :=
  match msgs.getLast? with
  | some (.ai _ calls) => calls
  | _ => []

/-- `execute_tools` from src/agent/graph.py: run the last AI message's
tool calls in request order through `ToolNode` (one `ToolMessage` per
call), and append a `{"tool", "result"}` record per `ToolMessage` to the
accumulated `tool_results`. -/
def execute_tools (runTool : String → String → String) (s : AgentState) :
    NodeOutput :=
  let calls := lastToolCalls s.messages
  let toolMsgs := calls.map fun c =>
    LCMessage.toolMsg c.name (runTool c.name c.args) c.id
  let results := toolMsgs.foldl
    (fun acc m =>
      match m with
      | .toolMsg nm ct _ => acc ++ [⟨nm, ct⟩]
      | _ => acc)
    s.tool_results
  { messages := toolMsgs
    tool_results := results
    reasoning_steps := s.reasoning_steps
    iteration_count := s.iteration_count }

/-- `should_continue` from src/agent/graph.py: stop once
`iteration_count >= MAX_ITERATIONS`; otherwise continue to the tools
node exactly when the last message is an `AIMessage` with a non-empty
`tool_calls` list. -/
def should_continue (s : AgentState) : Bool :=
  if s.iteration_count ≥ MAX_ITERATIONS then false
  else
    match s.messages.getLast? with
    | some (.ai _ calls) => !calls.isEmpty
    | _ => false

/-- One `(node_name, node_output)` item of `agent.astream(...)`. -/
inductive NodeEvent where
  | agent (out : NodeOutput)
  | tools (out : NodeOutput)
  deriving Repr, DecidableEq

/-- The outcome of running the compiled graph: the astream node events,
the message lists sent to the model, the final state, and the next free
model-call index. -/
structure RunResult where
  events : List NodeEvent
  requests : List (List LCMessage)
  state : AgentState
  calls : Nat
  deriving Repr, DecidableEq

/-- Execution of the compiled graph: `agent` node, then the
`should_continue` conditional edge to either `tools` (which loops back to
`agent`) or END.  `fuel` bounds the recursion; `stepLoop_fuel_stable`
below shows any fuel above `MAX_ITERATIONS - iteration_count` gives the
run's true, untruncated result. -/
def stepLoop (script : Nat → AIResp) (runTool : String → String → String) :
    Nat → AgentState → Nat → RunResult
  | 0, s, n => ⟨[], [], s, n⟩
  | fuel + 1, s, n =>
    let req := (call_model script n s).1
    let out := (call_model script n s).2
    let s₁ := applyUpdate s out
    if should_continue s₁ then
      let out₂ := execute_tools runTool s₁
      let s₂ := applyUpdate s₁ out₂
      let r := stepLoop script runTool fuel s₂ (n + 1)
      ⟨.agent out :: .tools out₂ :: r.events, req :: r.requests, r.state, r.calls⟩
    else
      ⟨[.agent out], [req], s₁, n + 1⟩

/-- The fuel the stream driver hands to `stepLoop`: one more than the
iteration cap, which `stepLoop_fuel_stable` proves is enough for a run
started at `iteration_count = 0` to terminate on its own. -/
def loopFuel : Nat := MAX_ITERATIONS + 1

/-- Events of the newline-delimited stream of src/streaming.py. -/
inductive Event where
  | status (content : String)
  | tool_call (tool : String) (args : String)
  | tool_result (tool : String) (result : String)
  | message (content : String)
  | error (content : String)
  | done
  deriving Repr, DecidableEq

/-- How `agent_stream_generator` projects one astream item to stream
events: an `agent` node with tool calls on its (only) message yields one
`tool_call` per call; a `tools` node with a non-empty accumulated
`tool_results` yields a single `tool_result` for the latest entry, its
text truncated to 500 characters. -/
def nodeEventToStream : NodeEvent → List Event
  | .agent out =>
    match out.messages.getLast? with
    | some (.ai _ calls) => calls.map fun c => Event.tool_call c.name c.args
    | _ => []
  | .tools out =>
    match out.tool_results.getLast? with
    | some r => [Event.tool_result r.tool (r.result.take 500)]
    | none => []

/-- An incoming `{role, content}` message dict. -/
structure RoleContent where
  role : String
  content : String
  deriving Repr, DecidableEq

/-- `[HumanMessage(content=msg["content"]) for msg in messages if
msg["role"] == "user"]`. -/
def lcMessages (messages : List RoleContent) : List LCMessage :=
  messages.filterMap fun m =>
    if m.role = "user" then some (.human m.content) else none

/-- The fresh state built per request in `agent_stream_generator`. -/
def initialState (lc : List LCMessage) : AgentState :=
  { messages := lc
    reasoning_steps := []
    tool_results := []
    iteration_count := 0 }

/-- Content of the final state's last message (the `message` event
payload); `""` stands for the unreachable empty case. -/
def lastMessageContent (s : AgentState) : String :=
  match s.messages.getLast? with
  | some m => m.content
  | none => ""

/-- `agent_stream_generator` from src/streaming.py on its non-raising
paths: keep the user messages, pick agent or simple mode, stream
status / per-node events / final message / done.  In agent mode the graph
runs twice: `agent.astream` drives the events, then `agent.invoke` on
the same `initial_state` recomputes the final state (consuming further
backend calls).  Returns the event list and the total number of model
invocations made. -/
def agent_stream_generator (messages : List RoleContent)
    (tool_choice : String) (enable_agent_mode : Bool)
    (script : Nat → AIResp) (runTool : String → String → String) :
    List Event × Nat :=
  let lc := lcMessages messages
  let use_agent := (tool_choice != "none") && enable_agent_mode
  if use_agent then
    let init := initialState lc
    let r₁ := stepLoop script runTool loopFuel init 0
    let streamEvents := r₁.events.flatMap nodeEventToStream
    let r₂ := stepLoop script runTool loopFuel init r₁.calls
    let msgEvents :=
      match r₂.state.messages.getLast? with
      | some m => [Event.message m.content]
      | none => []
    (Event.status "Agent mode activated" :: streamEvents ++ msgEvents ++ [Event.done],
     r₂.calls)
  else
    ([Event.status "Simple chat mode",
      Event.message (script 0).content, Event.done], 1)

/-- Is the event a `tool_call`? -/
def Event.isToolCall : Event → Bool
  | .tool_call _ _ => true
  | _ => false

/-- Is the event a `tool_result`? -/
def Event.isToolResult : Event → Bool
  | .tool_result _ _ => true
  | _ => false

/-- Is the event either kind of tool event? -/
def Event.isToolEvent (e : Event) : Bool :=
  e.isToolCall || e.isToolResult

/-- Number of `tool_call` events in a stream. -/
def countToolCalls (evs : List Event) : Nat :=
  (evs.filter Event.isToolCall).length

/-- Number of `tool_result` events in a stream. -/
def countToolResults (evs : List Event) : Nat :=
  (evs.filter Event.isToolResult).length

/-- A concrete model script for exercising the stream: the first response
requests two calculator calls, every later response is plain text. -/
def c3Script : Nat → AIResp := fun n =>
  if n = 0 then ⟨"", [⟨"1", "calculator", "2+2"⟩, ⟨"2", "calculator", "3+3"⟩]⟩
  else ⟨"done", []⟩

/-- A concrete tool oracle. -/
def c3RunTool : String → String → String := fun _ _ => "4"

/-! ## Supporting lemmas about the loop -/

theorem applyUpdate_iteration (s : AgentState) (u : NodeOutput) :
    (applyUpdate s u).iteration_count = u.iteration_count := rfl

theorem applyUpdate_messages (s : AgentState) (u : NodeOutput) :
    (applyUpdate s u).messages = s.messages ++ u.messages := rfl

theorem call_model_iteration (script : Nat → AIResp) (n : Nat) (s : AgentState) :
    ((call_model script n s).2).iteration_count = s.iteration_count + 1 := rfl

theorem call_model_messages (script : Nat → AIResp) (n : Nat) (s : AgentState) :
    ((call_model script n s).2).messages
      = [LCMessage.ai (script n).content (script n).tool_calls] := rfl

theorem execute_tools_iteration (runTool : String → String → String)
    (s : AgentState) :
    (execute_tools runTool s).iteration_count = s.iteration_count := rfl

/-- A run never leaves `should_continue` true with the cap reached:
continuing requires `iteration_count < MAX_ITERATIONS`. -/
theorem should_continue_lt {s : AgentState} (h : should_continue s = true) :
    s.iteration_count < MAX_ITERATIONS := by
  by_cases hit : s.iteration_count ≥ MAX_ITERATIONS
  · simp [should_continue, hit] at h
  · omega

/-- The final iteration count of a run is bounded by the larger of "one
more than where it started" and the cap. -/
theorem stepLoop_iteration_le (script : Nat → AIResp)
    (runTool : String → String → String) :
    ∀ fuel s n, (stepLoop script runTool fuel s n).state.iteration_count ≤
      max (s.iteration_count + 1) MAX_ITERATIONS := by
  intro fuel
  induction fuel with
  | zero => intro s n; simp only [stepLoop]; omega
  | succ f ih =>
    intro s n
    simp only [stepLoop]
    split
    · rename_i hsc
      have hlt := should_continue_lt hsc
      rw [applyUpdate_iteration, call_model_iteration] at hlt
      refine le_trans (ih _ (n + 1)) ?_
      rw [applyUpdate_iteration, execute_tools_iteration,
        applyUpdate_iteration, call_model_iteration]
      omega
    · rw [applyUpdate_iteration, call_model_iteration]
      omega

/-- Any positive fuel yields a non-empty final message list (the entry
node always appends the model's response). -/
theorem stepLoop_messages_ne_nil (script : Nat → AIResp)
    (runTool : String → String → String) :
    ∀ fuel s n, (stepLoop script runTool (fuel + 1) s n).state.messages ≠ [] := by
  intro fuel
  induction fuel with
  | zero =>
    intro s n
    simp only [stepLoop]
    split
    · simp [stepLoop, applyUpdate_messages, call_model_messages]
    · simp [applyUpdate_messages, call_model_messages]
  | succ f ih =>
    intro s n
    simp only [stepLoop]
    split
    · exact ih _ (n + 1)
    · simp [applyUpdate_messages, call_model_messages]

/-- The next free model-call index never decreases along a run. -/
theorem stepLoop_calls_mono (script : Nat → AIResp)
    (runTool : String → String → String) :
    ∀ fuel s n, n ≤ (stepLoop script runTool fuel s n).calls := by
  intro fuel
  induction fuel with
  | zero => intro s n; simp [stepLoop]
  | succ f ih =>
    intro s n
    simp only [stepLoop]
    split
    · exact le_trans (by omega) (ih _ (n + 1))
    · simp

/-- With positive fuel the run makes at least one model call. -/
theorem stepLoop_calls_succ (script : Nat → AIResp)
    (runTool : String → String → String) (fuel : Nat) (s : AgentState) (n : Nat) :
    n + 1 ≤ (stepLoop script runTool (fuel + 1) s n).calls := by
  simp only [stepLoop]
  split
  · exact stepLoop_calls_mono script runTool fuel _ (n + 1)
  · simp

/-- Fuel above `MAX_ITERATIONS - iteration_count` does not change the
result: the loop reaches its own END first, so `loopFuel` runs are the
true, untruncated graph executions. -/
theorem stepLoop_fuel_stable (script : Nat → AIResp)
    (runTool : String → String → String) :
    ∀ fuel s n, MAX_ITERATIONS - s.iteration_count < fuel →
      stepLoop script runTool fuel s n = stepLoop script runTool (fuel + 1) s n := by
  intro fuel
  induction fuel with
  | zero => intro s n h; omega
  | succ f ih =>
    intro s n h
    by_cases hsc : should_continue (applyUpdate s (call_model script n s).2) = true
    · have hlt := should_continue_lt hsc
      rw [applyUpdate_iteration, call_model_iteration] at hlt
      conv_lhs => rw [stepLoop]
      conv_rhs => rw [stepLoop]
      simp only [hsc, if_true]
      rw [ih _ (n + 1) (by
        rw [applyUpdate_iteration, execute_tools_iteration,
          applyUpdate_iteration, call_model_iteration]
        omega)]
    · conv_lhs => rw [stepLoop]
      conv_rhs => rw [stepLoop]
      simp only [hsc]
      simp

/-! ## Claims -/

/-- C1: every character the calculator ever hands to `eval` lies in the
allowed class (digits, whitespace, parentheses, decimal point, the four
operators); `calculator ""` is an error result; `"__import__('os')"` is
sanitized to the residue `"()"` — no character of the import call
survives — and evaluating that residue yields the harmless `Result: ()`
without any code execution. -/
theorem c1_calculator_sanitizes_before_eval :
    (∀ s : String, (sanitize s).data.all calcAllowed = true) ∧
    calculator "" = "Error: Invalid expression" ∧
    sanitize "__import__('os')" = "()" ∧
    calculator "__import__('os')" = "Result: ()" := by
  refine ⟨fun s => ?_, by decide, by decide, by decide⟩
  show (s.data.filter calcAllowed).all calcAllowed = true
  rw [List.all_eq_true]
  intro c hc
  exact (List.mem_filter.mp hc).2

/-- C2: the tool-registry contract says no tool invocation may raise, yet
`text_analyzer` divides by the word count with no `try`/`except`, so the
empty text raises an uncaught `ZeroDivisionError` instead of returning an
`Error:`-prefixed string (contrast `calculator`, which catches the same
failure). -/
theorem c2_text_analyzer_uncaught_zero_division :
    text_analyzer "" = Except.error PyExc.zeroDivision ∧
    calculator "1/0" = "Error: Division by zero" := by
  exact ⟨rfl, by decide⟩

/-- C7: base64-encoding `"hi"` yields payload `aGk=`, and decoding that
payload recovers `"hi"` exactly. -/
theorem c7_base64_round_trip :
    encode_decode_text "hi" "base64_encode" = "Base64 encoded: aGk=" ∧
    encode_decode_text "aGk=" "base64_decode" = "Base64 decoded: hi" := by
  exact ⟨by decide, by decide⟩

/-- C4: a run started from the fresh per-request state (iteration count
0) never ends with `iteration_count` above the default cap of 2, for any
model behaviour, tool behaviour, fuel and starting call index — this
covers both graph executions the stream driver performs. -/
theorem c4_iteration_count_capped (fuel n : Nat) (script : Nat → AIResp)
    (runTool : String → String → String) (msgs : List RoleContent) :
    (stepLoop script runTool fuel (initialState (lcMessages msgs)) n).state.iteration_count ≤ 2 := by
  have h := stepLoop_iteration_le script runTool fuel (initialState (lcMessages msgs)) n
  have h0 : (initialState (lcMessages msgs)).iteration_count = 0 := rfl
  rw [h0] at h
  simpa [MAX_ITERATIONS] using h

/-- C5: starting from any state whose messages contain no system message,
every message list the loop sends to the model begins with the system
prompt and contains no further system message — i.e. exactly one system
message, prepended once per request. -/
theorem c5_system_prompt_exactly_once (script : Nat → AIResp)
    (runTool : String → String → String) :
    ∀ fuel (s : AgentState) n, s.messages.any LCMessage.isSystem = false →
      ∀ req ∈ (stepLoop script runTool fuel s n).requests,
        ∃ rest, req = LCMessage.system get_system_prompt :: rest
          ∧ rest.any LCMessage.isSystem = false := by
  intro fuel
  induction fuel with
  | zero => intro s n hs req hreq; simp [stepLoop] at hreq
  | succ f ih =>
    intro s n hs req hreq
    have hreq0 : (call_model script n s).1
        = LCMessage.system get_system_prompt :: s.messages := by
      simp [call_model, hs]
    simp only [stepLoop] at hreq
    split at hreq
    · simp only [List.mem_cons] at hreq
      rcases hreq with rfl | hmem
      · exact ⟨s.messages, hreq0, hs⟩
      · refine ih _ (n + 1) ?_ req hmem
        simp [applyUpdate_messages, call_model_messages, execute_tools,
          List.any_append, hs, LCMessage.isSystem, List.any_map, Function.comp]
    · simp only [List.mem_singleton] at hreq
      subst hreq
      exact ⟨s.messages, hreq0, hs⟩

/-- Witness for C5 at a concrete one-turn run. -/
theorem c5_system_prompt_exactly_once_witness :
    (initialState [LCMessage.human "hi"]).messages.any LCMessage.isSystem = false ∧
    ∃ rest, ([LCMessage.system get_system_prompt, LCMessage.human "hi"] : List LCMessage)
        = LCMessage.system get_system_prompt :: rest
      ∧ rest.any LCMessage.isSystem = false :=
  ⟨by decide,
   c5_system_prompt_exactly_once (fun _ => ⟨"ok", []⟩) (fun _ _ => "") 1
     (initialState [LCMessage.human "hi"]) 0 (by decide)
     [LCMessage.system get_system_prompt, LCMessage.human "hi"] (by decide)⟩

/-- C6: every event list the stream generator produces on its
non-raising paths ends with a `message` event immediately followed by the
terminal `done` event, in both agent and simple mode. -/
theorem c6_message_then_done_last (msgs : List RoleContent) (tool_choice : String)
    (enable_agent_mode : Bool) (script : Nat → AIResp)
    (runTool : String → String → String) :
    ∃ pre c, (agent_stream_generator msgs tool_choice enable_agent_mode script runTool).1
      = pre ++ [Event.message c, Event.done] := by
  by_cases hu : ((tool_choice != "none") && enable_agent_mode) = true
  · obtain ⟨m, hm⟩ : ∃ m,
        (stepLoop script runTool loopFuel (initialState (lcMessages msgs))
          (stepLoop script runTool loopFuel (initialState (lcMessages msgs)) 0).calls).state.messages.getLast?
          = some m := by
      have hne := stepLoop_messages_ne_nil script runTool MAX_ITERATIONS
        (initialState (lcMessages msgs))
        (stepLoop script runTool loopFuel (initialState (lcMessages msgs)) 0).calls
      rw [Option.isSome_iff_exists.symm, List.getLast?_isSome]
      exact hne
    refine ⟨Event.status "Agent mode activated" ::
      (stepLoop script runTool loopFuel (initialState (lcMessages msgs)) 0).events.flatMap
        nodeEventToStream, m.content, ?_⟩
    simp only [agent_stream_generator, hu, if_true]
    rw [hm]
    simp
  · refine ⟨[Event.status "Simple chat mode"], (script 0).content, ?_⟩
    simp only [agent_stream_generator, Bool.not_eq_true] at hu ⊢
    rw [hu]
    simp

/-- C8: `tool_choice = "none"` forces the simple path even with agent
mode globally enabled; the stream is exactly status, message, done and
contains no tool events. -/
theorem c8_tool_choice_none_no_tool_events (msgs : List RoleContent)
    (enable_agent_mode : Bool) (script : Nat → AIResp)
    (runTool : String → String → String) :
    agent_stream_generator msgs "none" enable_agent_mode script runTool
      = ([Event.status "Simple chat mode", Event.message (script 0).content, Event.done], 1)
    ∧ countToolCalls (agent_stream_generator msgs "none" enable_agent_mode script runTool).1 = 0
    ∧ countToolResults (agent_stream_generator msgs "none" enable_agent_mode script runTool).1 = 0 := by
  have h : agent_stream_generator msgs "none" enable_agent_mode script runTool
      = ([Event.status "Simple chat mode", Event.message (script 0).content, Event.done], 1) := by
    simp [agent_stream_generator]
  refine ⟨h, ?_, ?_⟩ <;> rw [h] <;>
    simp [countToolCalls, countToolResults, Event.isToolCall, Event.isToolResult]

/-- C9: the stream driver keeps only the `user`-role messages, in their
original order, as `HumanMessage`s; system/assistant/tool messages from
the caller are dropped, so the whole run is unchanged if they are removed
up front. -/
theorem c9_only_user_messages_forwarded (msgs : List RoleContent) (tool_choice : String)
    (enable_agent_mode : Bool) (script : Nat → AIResp)
    (runTool : String → String → String) :
    lcMessages msgs
      = (msgs.filter fun m => m.role == "user").map (fun m => LCMessage.human m.content)
    ∧ agent_stream_generator msgs tool_choice enable_agent_mode script runTool
      = agent_stream_generator (msgs.filter fun m => m.role == "user")
          tool_choice enable_agent_mode script runTool := by
  have h1 : ∀ l : List RoleContent, lcMessages l
      = (l.filter fun m => m.role == "user").map (fun m => LCMessage.human m.content) := by
    intro l
    induction l with
    | nil => rfl
    | cons a t ih =>
      simp only [lcMessages] at ih ⊢
      by_cases ha : a.role = "user"
      · simp [List.filterMap_cons, List.filter_cons, ha, ih]
      · simp [List.filterMap_cons, List.filter_cons, ha, ih]
  have h2 : lcMessages (msgs.filter fun m => m.role == "user") = lcMessages msgs := by
    rw [h1, h1, List.filter_filter]
    simp
  refine ⟨h1 msgs, ?_⟩
  simp only [agent_stream_generator]
  rw [h2]

/-- C10: in agent mode the final `message` event's content is the last
message of a second, fresh graph execution from the same initial state
(`agent.invoke` after `agent.astream`), and the request's total model
calls are those of the streamed run plus at least one more from the
re-execution. -/
theorem c10_final_message_from_reexecution (msgs : List RoleContent)
    (script : Nat → AIResp) (runTool : String → String → String) :
    (agent_stream_generator msgs "auto" true script runTool).1
      = Event.status "Agent mode activated"
        :: (stepLoop script runTool loopFuel (initialState (lcMessages msgs)) 0).events.flatMap nodeEventToStream
        ++ [Event.message (lastMessageContent
              (stepLoop script runTool loopFuel (initialState (lcMessages msgs))
                (stepLoop script runTool loopFuel (initialState (lcMessages msgs)) 0).calls).state),
            Event.done]
    ∧ (agent_stream_generator msgs "auto" true script runTool).2
      = (stepLoop script runTool loopFuel (initialState (lcMessages msgs))
          (stepLoop script runTool loopFuel (initialState (lcMessages msgs)) 0).calls).calls
    ∧ 1 ≤ (stepLoop script runTool loopFuel (initialState (lcMessages msgs)) 0).calls
    ∧ (stepLoop script runTool loopFuel (initialState (lcMessages msgs)) 0).calls + 1
      ≤ (stepLoop script runTool loopFuel (initialState (lcMessages msgs))
          (stepLoop script runTool loopFuel (initialState (lcMessages msgs)) 0).calls).calls := by
  obtain ⟨m, hm⟩ : ∃ m,
      (stepLoop script runTool loopFuel (initialState (lcMessages msgs))
        (stepLoop script runTool loopFuel (initialState (lcMessages msgs)) 0).calls).state.messages.getLast?
        = some m := by
    have hne := stepLoop_messages_ne_nil script runTool MAX_ITERATIONS
      (initialState (lcMessages msgs))
      (stepLoop script runTool loopFuel (initialState (lcMessages msgs)) 0).calls
    rw [Option.isSome_iff_exists.symm, List.getLast?_isSome]
    exact hne
  refine ⟨?_, ?_, ?_, ?_⟩
  · simp only [agent_stream_generator, lastMessageContent]
    rw [hm]
    simp
  · simp only [agent_stream_generator]
    rw [hm]
    simp
  · exact stepLoop_calls_succ script runTool MAX_ITERATIONS _ 0
  · exact stepLoop_calls_succ script runTool MAX_ITERATIONS _ _


/-- Appending one `tool_results` record per `ToolMessage`, in order. -/
theorem foldl_toolResults (runTool : String → String → String)
    (calls : List ToolCall) (init : List ToolResult) :
    List.foldl
      (fun acc m =>
        match m with
        | LCMessage.toolMsg nm ct _ => acc ++ [⟨nm, ct⟩]
        | _ => acc)
      init (calls.map fun c => LCMessage.toolMsg c.name (runTool c.name c.args) c.id)
    = init ++ calls.map fun c => ⟨c.name, runTool c.name c.args⟩ := by
  induction calls generalizing init with
  | nil => simp
  | cons c t ih => simp [ih]

/-- The tools node appends exactly one result record per requested call. -/
theorem execute_tools_results (runTool : String → String → String) (s : AgentState) :
    (execute_tools runTool s).tool_results
      = s.tool_results ++ (lastToolCalls s.messages).map
          (fun c => ⟨c.name, runTool c.name c.args⟩) := by
  simp only [execute_tools]
  exact foldl_toolResults runTool (lastToolCalls s.messages) s.tool_results

theorem initialState_iteration (lc : List LCMessage) :
    (initialState lc).iteration_count = 0 := rfl

/-- An `agent` astream item yields one `tool_call` event per requested
call of that model response. -/
theorem agentStream_events (script : Nat → AIResp) (n : Nat) (s : AgentState) :
    nodeEventToStream (.agent (call_model script n s).2)
      = (script n).tool_calls.map fun t => Event.tool_call t.name t.args := by
  simp [nodeEventToStream, call_model]

theorem filter_isToolEvent_callMap (l : List ToolCall) :
    (l.map fun t => Event.tool_call t.name t.args).filter Event.isToolEvent
      = l.map fun t => Event.tool_call t.name t.args := by
  induction l <;> simp [Event.isToolEvent, Event.isToolCall, *]

theorem filter_isToolCall_callMap (l : List ToolCall) :
    (l.map fun t => Event.tool_call t.name t.args).filter Event.isToolCall
      = l.map fun t => Event.tool_call t.name t.args := by
  induction l <;> simp [Event.isToolCall, *]

theorem filter_isToolResult_callMap (l : List ToolCall) :
    (l.map fun t => Event.tool_call t.name t.args).filter Event.isToolResult = [] := by
  induction l <;> simp [Event.isToolResult, *]

/-- C3 (counterexample): with two tool calls in the first model turn, the
stream carries two `tool_call` events but a single `tool_result` event
(only `tool_results[-1]` is streamed), so the per-turn counts differ. -/
theorem c3_counterexample_two_calls_one_result :
    countToolCalls ((agent_stream_generator [⟨"user", "hi"⟩] "auto" true c3Script c3RunTool).1) = 2
    ∧ countToolResults ((agent_stream_generator [⟨"user", "hi"⟩] "auto" true c3Script c3RunTool).1) = 1
    ∧ countToolCalls ((agent_stream_generator [⟨"user", "hi"⟩] "auto" true c3Script c3RunTool).1)
      ≠ countToolResults ((agent_stream_generator [⟨"user", "hi"⟩] "auto" true c3Script c3RunTool).1) := by
  exact ⟨by decide, by decide, by decide⟩

/-- C3 (amended): when the first model response requests tools, the first
tool event of the stream is a `tool_call` (so a `tool_call` precedes every
`tool_result`), but each executed tool round emits exactly one
`tool_result` event regardless of how many calls the turn requested, and
the cap-cut final turn may add further `tool_call` events with no
results: the run has one `tool_result` and one `tool_call` per call of
the two model turns. -/
theorem c3_tool_call_before_result_amended (script : Nat → AIResp)
    (runTool : String → String → String)
    (msgs : List RoleContent) (h : (script 0).tool_calls ≠ []) :
    ((agent_stream_generator msgs "auto" true script runTool).1.filter Event.isToolEvent).head?
      = some (Event.tool_call ((script 0).tool_calls.head h).name
          ((script 0).tool_calls.head h).args)
    ∧ countToolResults (agent_stream_generator msgs "auto" true script runTool).1 = 1
    ∧ countToolCalls (agent_stream_generator msgs "auto" true script runTool).1
      = (script 0).tool_calls.length + (script 1).tool_calls.length := by
  obtain ⟨c, cs, hcs⟩ := List.exists_cons_of_ne_nil h
  have hsc1 : should_continue (applyUpdate (initialState (lcMessages msgs))
      (call_model script 0 (initialState (lcMessages msgs))).2) = true := by
    simp [should_continue, applyUpdate, call_model, initialState, MAX_ITERATIONS,
      List.getLast?_concat, hcs]
  have hsc2 : ∀ s₂ : AgentState, s₂.iteration_count = 1 →
      should_continue (applyUpdate s₂ (call_model script 1 s₂).2) = false := by
    intro s₂ h2
    simp [should_continue, applyUpdate, call_model, MAX_ITERATIONS, h2]
  obtain ⟨m, hm⟩ : ∃ m,
      (stepLoop script runTool loopFuel (initialState (lcMessages msgs))
        (stepLoop script runTool loopFuel (initialState (lcMessages msgs)) 0).calls).state.messages.getLast?
        = some m := by
    have hne := stepLoop_messages_ne_nil script runTool MAX_ITERATIONS
      (initialState (lcMessages msgs))
      (stepLoop script runTool loopFuel (initialState (lcMessages msgs)) 0).calls
    rw [Option.isSome_iff_exists.symm, List.getLast?_isSome]
    exact hne
  have htools : ∃ r : ToolResult,
      nodeEventToStream (.tools (execute_tools runTool
        (applyUpdate (initialState (lcMessages msgs))
          (call_model script 0 (initialState (lcMessages msgs))).2)))
      = [Event.tool_result r.tool (r.result.take 500)] := by
    have hlast : lastToolCalls (applyUpdate (initialState (lcMessages msgs))
        (call_model script 0 (initialState (lcMessages msgs))).2).messages = c :: cs := by
      simp [lastToolCalls, applyUpdate, call_model, initialState,
        List.getLast?_concat, hcs]
    have hres := execute_tools_results runTool
      (applyUpdate (initialState (lcMessages msgs))
        (call_model script 0 (initialState (lcMessages msgs))).2)
    rw [hlast] at hres
    obtain ⟨r, hr⟩ : ∃ r, (execute_tools runTool
        (applyUpdate (initialState (lcMessages msgs))
          (call_model script 0 (initialState (lcMessages msgs))).2)).tool_results.getLast?
        = some r := by
      rw [Option.isSome_iff_exists.symm, List.getLast?_isSome, hres]
      simp
    exact ⟨r, by simp [nodeEventToStream, hr]⟩
  obtain ⟨r, hr⟩ := htools
  simp only [agent_stream_generator]
  rw [hm]
  have h3 : loopFuel = 2 + 1 := rfl
  rw [h3]
  rw [stepLoop]
  simp only [hsc1, if_true]
  rw [show (2 : Nat) = 1 + 1 from rfl]
  rw [stepLoop]
  simp only [Nat.zero_add]
  rw [hsc2 _ (by
    simp [applyUpdate_iteration, execute_tools_iteration, call_model_iteration,
      initialState_iteration])]
  rw [if_neg (by simp : ¬(false = true))]
  simp only [List.flatMap_cons, List.flatMap_nil]
  rw [agentStream_events, agentStream_events, hr]
  simp only [List.append_nil, List.nil_append]
  simp [countToolCalls, countToolResults, Event.isToolEvent, Event.isToolCall,
    Event.isToolResult, List.filter_append, List.filter_cons,
    filter_isToolEvent_callMap, filter_isToolCall_callMap,
    filter_isToolResult_callMap, hcs]
  omega

/-- Witness for the amended C3 at the concrete two-call script. -/
theorem c3_tool_call_before_result_amended_witness :
    (c3Script 0).tool_calls ≠ [] ∧
    (((agent_stream_generator [⟨"user", "hi"⟩] "auto" true c3Script c3RunTool).1.filter Event.isToolEvent).head?
      = some (Event.tool_call ((c3Script 0).tool_calls.head (by decide)).name
          ((c3Script 0).tool_calls.head (by decide)).args)
    ∧ countToolResults (agent_stream_generator [⟨"user", "hi"⟩] "auto" true c3Script c3RunTool).1 = 1
    ∧ countToolCalls (agent_stream_generator [⟨"user", "hi"⟩] "auto" true c3Script c3RunTool).1
      = (c3Script 0).tool_calls.length + (c3Script 1).tool_calls.length) :=
  ⟨by decide,
   c3_tool_call_before_result_amended c3Script c3RunTool [⟨"user", "hi"⟩] (by decide)⟩

end ChatbotOllama
